import Mathlib

/-!
Shallow embedding of pysph/sph/integrator_opencl_helper.py.

The file models the two classes of that module:
  - OpenCLIntegrator: the staged runtime (step, _do_stage, do_post_stage,
    compute_accelerations);
  - IntegratorOpenCLHelper: kernel generation (get_code, get_stepper_code,
    get_stepper_kernel, get_py_stage_code) and call-table construction
    (_setup_call_data).

Mutable external state (device buffers, live particle counts) is modelled by
an explicit World value read at invocation time; host-visible effects (hook
invocations, kernel launches, NNPS updates, acceleration evaluation,
post-stage callbacks) are modelled as an event trace.
-/

namespace PySPH

/-- The active numeric precision of the runtime: np.float64 when
get_config().use_double else np.float32. -/
inductive Precision
  | single
  | double
deriving DecidableEq, Repr

/-- A host scalar cast to a device dtype: models np.asarray(x, dtype=dtype).
Floating-point rounding is not modelled; the value is kept exact and tagged
with the precision it was cast to. -/
structure Scalar where
  prec : Precision
  val : ℚ
deriving DecidableEq, Repr

/-- np.asarray(x, dtype=dtype): tag the value with the active precision. -/
def asarray (x : ℚ) (p : Precision) : Scalar := ⟨p, x⟩

/-- Mutable external state at one instant: for each destination particle
array, its live (real) particle count and, for each GPU field name, the
address of the current device buffer (getattr(dest.gpu, x).dev.data).
Buffers may be reallocated and counts may change between stages, so every
read goes through the World current at that moment. -/
structure World where
  n_real : String → Nat
  bufData : String → String → Nat

/-- A concrete argument value passed positionally to a kernel call. -/
inductive Val
  | queue                      -- the command queue q
  | gsize (n : Nat)            -- the global size tuple (n,)
  | lsizeNone                  -- the local size, always None
  | buf (addr : Nat)           -- a resolved device buffer
  | scalar (s : Scalar)        -- t or dt, cast to the active precision
deriving DecidableEq, Repr

/-- A stored argument slot of a call descriptor, as built by
_setup_call_data: all_args = [q, None, None] + late accessors.  The late
accessor functools.partial(_getter, dest.gpu, x[2:]) is modelled by its
captured data (destination name standing for the dest.gpu reference, and the
field name x[2:]); _getter applied to the current World performs the
deferred resolution. -/
inductive Arg
  | queue
  | hole                              -- a None placeholder (slots 1 and 2)
  | gsize (n : Nat)                   -- written into slot 1 at launch time
  | acc (destName fieldName : String) -- a late accessor
deriving DecidableEq, Repr

/-- _getter(dest_gpu, x) = getattr(dest_gpu, x).dev.data: resolve a late
accessor against the current World. -/
def _getter (w : World) (destName fieldName : String) : Val :=
  Val.buf (w.bufData destName fieldName)

/-- Evaluate a stored argument slot against the current World. -/
def Arg.resolve (w : World) : Arg → Val
  | .queue => Val.queue
  | .hole => Val.lsizeNone
  | .gsize n => Val.gsize n
  | .acc d f => _getter w d f

/-- A host-visible effect of the runtime. -/
inductive Event
  | hookCall (method destName : String) (t dt : Scalar)
  | kernelLaunch (kernel destName : String) (args : List Val)
  | pm_update                       -- parallel_manager.update()
  | nnps_update                     -- nnps.update()
  | accel_compute (t dt : ℚ)        -- acceleration_eval.compute(t, dt)
  | post_stage_callback (t dt : ℚ) (stage : Nat)
deriving DecidableEq, Repr

/-- One entry of helper.calls[method]: the tuple (call, all_args, dest) built
by _setup_call_data.  The compiled kernel handle is identified by its name. -/
structure CallEntry where
  kernel : String
  destName : String
  all_args : List Arg
deriving DecidableEq, Repr

/-- The tables the runtime reads: helper.calls and helper.py_calls, both
defaultdict(dict) keyed by method name then destination.  Each is modelled
as a flat association list in insertion order; looking a method up returns
its entries in insertion order, and a missing method yields the empty list
(defaultdict semantics).  wrapper_names records the stage methods for which
_setup_methods installed an attribute on the integrator. -/
structure Helper where
  calls : List (String × CallEntry)
  py_calls : List (String × String)
  wrapper_names : List String
deriving DecidableEq, Repr

/-- helper.calls[method] (defaultdict: empty for an absent method), entries
in insertion order. -/
def Helper.callsFor (h : Helper) (method : String) : List CallEntry :=
  (h.calls.filter (fun p => p.1 == method)).map Prod.snd

/-- helper.py_calls[key] (defaultdict: empty for an absent key). -/
def Helper.pyCallsFor (h : Helper) (key : String) : List String :=
  (h.py_calls.filter (fun p => p.1 == key)).map Prod.snd

namespace OpenCLIntegrator

/-- OpenCLIntegrator._do_stage(method), as a function of the World current
at invocation time, returning the trace of host hook calls followed by
kernel launches. -/
def _do_stage (h : Helper) (w : World) (use_double : Bool) (t dt : ℚ)
    (method : String) : List Event :=
  let call_info := h.callsFor method
  let py_call_info := h.pyCallsFor ("py_" ++ method)
  let dtype := if use_double then Precision.double else Precision.single
  let extra_args := [asarray t dtype, asarray dt dtype]
  -- Call the py_{method} for each destination: py_meth(dest, *extra_args).
  (py_call_info.map fun destName =>
    Event.hookCall ("py_" ++ method) destName (asarray t dtype)
      (asarray dt dtype)) ++
  -- Call the stage* method for each destination.
  (call_info.map fun c =>
    let n := w.n_real c.destName       -- dest.get_number_of_particles(real=True)
    let args := c.all_args.set 1 (Arg.gsize n)   -- args[1] = (n,)
    let rest := (args.drop 3).map (Arg.resolve w)  -- [x() for x in args[3:]]
    -- call(*(args[:3] + rest + extra_args))
    Event.kernelLaunch c.kernel c.destName
      ((args.take 3).map (Arg.resolve w) ++ rest ++ extra_args.map Val.scalar))

/-- The mutable attributes of an OpenCLIntegrator that stepping reads and
writes: orig_t, t, dt (set by step and do_post_stage), the helper tables,
the presence of the optional post-stage callback and parallel manager, and
the precision flag fixed at construction. -/
structure State where
  helper : Helper
  orig_t : ℚ
  t : ℚ
  dt : ℚ
  has_post_stage_callback : Bool
  has_parallel_manager : Bool
  use_double : Bool
deriving DecidableEq, Repr

/-- OpenCLIntegrator.compute_accelerations: update the parallel manager when
one is set, update NNPS, then acceleration_eval.compute(t, dt). -/
def compute_accelerations (s : State) : List Event :=
  -- update NNPS since particles have moved
  (if s.has_parallel_manager then [Event.pm_update] else []) ++
  [Event.nnps_update] ++
  -- Evaluate
  [Event.accel_compute s.t s.dt]

/-- OpenCLIntegrator.do_post_stage(stage_dt, stage): set
t = orig_t + stage_dt, then call the post-stage callback with (t, dt, stage)
when one is registered. -/
def do_post_stage (s : State) (stage_dt : ℚ) (stage : Nat) :
    State × List Event :=
  let s' := { s with t := s.orig_t + stage_dt }
  (s', if s'.has_post_stage_callback then
        [Event.post_stage_callback s'.t s'.dt stage]
      else [])

/-- Modelled from the spec: the integrator's one_timestep method (user code,
exec'd by _setup_methods; its source is outside src/) is an ordered sequence
of calls on self: stage wrappers, compute_accelerations, and do_post_stage.
A stage_dt handed to do_post_stage is authored as a multiple of dt. -/
inductive Op
  | run_stage (name : String)            -- self.{name}()
  | compute_accel                        -- self.compute_accelerations()
  | post_stage (frac : ℚ) (stage : Nat)  -- self.do_post_stage(frac*dt, stage)
deriving DecidableEq, Repr

/-- Execute one operation of one_timestep.  A stage wrapper attribute exists
on the integrator precisely for the names _setup_methods installed
(helper.get_stepper_method_wrapper_names()); calling an absent attribute
raises AttributeError at that moment. -/
def runOp (w : World) (s : State) : Op → Except String (State × List Event)
  | .run_stage name =>
      if name ∈ s.helper.wrapper_names then
        Except.ok (s, _do_stage s.helper w s.use_double s.t s.dt name)
      else
        Except.error ("AttributeError: " ++ name)
  | .compute_accel => Except.ok (s, compute_accelerations s)
  | .post_stage frac stage => Except.ok (do_post_stage s (frac * s.dt) stage)

/-- Execute the captured one_timestep operations in order, concatenating
their event traces; the first failure aborts the run. -/
def runProgram (w : World) (s : State) :
    List Op → Except String (State × List Event)
  | [] => Except.ok (s, [])
  | op :: ops =>
    match runOp w s op with
    | Except.error e => Except.error e
    | Except.ok (s1, ev) =>
      match runProgram w s1 ops with
      | Except.error e => Except.error e
      | Except.ok (s2, evs) => Except.ok (s2, ev ++ evs)

/-- OpenCLIntegrator.step(t, dt): set orig_t = t, t = t, dt = dt, then run
one_timestep. -/
def step (w : World) (s : State) (prog : List Op) (t dt : ℚ) :
    Except String (State × List Event) :=
  runProgram w { s with orig_t := t, t := t, dt := dt } prog

end OpenCLIntegrator

namespace IntegratorOpenCLHelper

/-- A stepper instance assigned to a destination (an instance of an
UpdateRule variant).  cls is its class name (the variant identity); stages
associates each stage method the class defines with the argument-name list
of that method (as inspect reports it, including self); py_stages lists the
stage names m for which the stepper has a host hook attribute py_{m}.  The
stages and py_stages tables are determined by the class. -/
structure Stepper where
  cls : String
  stages : List (String × List String)
  py_stages : List String
deriving DecidableEq, Repr

/-- Modelled from the spec: get_args(dest, method) (inherited from
IntegratorCythonHelper, whose source is not under src/) returns the argument
names of the stepper's stage method, fixed by the stepper's class. -/
def get_args (st : Stepper) (method : String) : List String :=
  (st.stages.lookup method).getD []

/-- Modelled from the spec: has_stepper_loop (inherited from
IntegratorCythonHelper, not under src/) holds when the stepper's class
defines the given stage method. -/
def has_stepper_loop (st : Stepper) (method : String) : Bool :=
  (st.stages.lookup method).isSome

/-- Modelled from the spec: get_stepper_method_wrapper_names (inherited from
IntegratorCythonHelper, not under src/) returns the names of the stage
methods to wrap: those defined by at least one stepper. -/
def get_stepper_method_wrapper_names
    (steppers : List (String × Stepper)) : List String :=
  (steppers.flatMap fun p => p.2.stages.map Prod.fst).dedup

/-- s.startsWith(p), computed on the character data. -/
def strStartsWith (s p : String) : Bool := p.data.isPrefixOf s.data

/-- s[n:], computed on the character data. -/
def strDrop (s : String) (n : Nat) : String := ⟨s.data.drop n⟩

/-- Modelled from the spec: get_array_names (imported from .equation, not
under src/) splits argument names into source arrays (prefix s_) and
destination arrays (prefix d_); the particle index d_idx is not a field and
is excluded (the generated body declares it from get_global_id).  Their
order is fixed by the kernel signature. -/
def get_array_names (args : List String) : List String × List String :=
  (args.filter (fun x => strStartsWith x "s_" && x != "s_idx"),
   args.filter (fun x => strStartsWith x "d_" && x != "d_idx"))

/-- args = get_args(dest, method); if 'self' in args: args.remove('self'). -/
def stepper_args (st : Stepper) (method : String) : List String :=
  let args := get_args st method
  if "self" ∈ args then args.erase "self" else args

/-- Modelled from the spec: wrap_code (imported from
acceleration_eval_opencl_helper, not under src/) wraps the generated call
statement into the body of the generic per-element entry point. -/
def wrap_code (call : String) : List String := [call]

/-- Modelled from the spec: get_kernel_definition (imported from
acceleration_eval_opencl_helper, not under src/) renders the kernel
signature from its name and typed argument list. -/
def get_kernel_definition (kernel : String) (all_args : List String) :
    String :=
  "__kernel void " ++ kernel ++ "(" ++ String.intercalate ", " all_args ++ ")"

/-- kernel = '{method}_{dest}'.format(...). -/
def stepper_kernel_name (method dest : String) : String :=
  method ++ "_" ++ dest

/-- The body built by get_stepper_kernel: the global-id line plus the
wrapped call '{cls}_{method}(0, args...)' (0 is the sentinel empty-struct
placeholder for the stepper instance), each line indented four spaces. -/
def stepper_kernel_body (st : Stepper) (method : String) : String :=
  let args := stepper_args st method
  let code := ["int d_idx = get_global_id(0);"] ++
    wrap_code (st.cls ++ "_" ++ method ++ "(" ++
      String.intercalate ", " ("0" :: args) ++ ");")
  String.intercalate "\n" (code.map fun x => "    " ++ x)

/-- The field list stored by get_stepper_kernel into
self.data[method][dest]: the destination-array argument names list(d). -/
def stepper_data_fields (st : Stepper) (method : String) : List String :=
  (get_array_names (stepper_args st method)).2

/-- The full source string returned by get_stepper_kernel, with typed the
external type registry mapping an argument name to its typed declaration. -/
def get_stepper_kernel_source (typed : String → String) (st : Stepper)
    (dest method : String) : String :=
  let kernel := stepper_kernel_name method dest
  let d := stepper_data_fields st method
  let all_args := (d ++ ["t", "dt"]).map typed
  let sig := get_kernel_definition kernel all_args
  sig ++ "\n\x7b\n" ++ stepper_kernel_body st method ++ "\n\x7d\n"

/-- Lexicographic comparison of character sequences by code point, the
order Python's sorted() uses on str values. -/
def dataLe : List Char → List Char → Bool
  | [], _ => true
  | _ :: _, [] => false
  | a :: as, b :: bs =>
    if a.toNat < b.toNat then true
    else if b.toNat < a.toNat then false
    else dataLe as bs

/-- Lexicographic string comparison by code point. -/
def strLe (a b : String) : Bool := dataLe a.data b.data

/-- sorted(helper.object.steppers.keys()), the destination iteration order
of the get_code template: the destination names in lexicographic order. -/
def sorted_dest_names (steppers : List (String × Stepper)) : List String :=
  (steppers.map Prod.fst).insertionSort (fun a b => strLe a b = true)

/-- helper.object.steppers[dest]. -/
def lookupStepper (steppers : List (String × Stepper)) (dest : String) :
    Option Stepper :=
  steppers.lookup dest

/-- One record of helper.data: data[method][dest] = (kernel, list(d)),
kept with its insertion position in the flat list. -/
structure DataEntry where
  method : String
  destName : String
  kernel : String
  fields : List String
deriving DecidableEq, Repr

/-- The entries written into helper.data while the get_code template
renders: for dest in sorted(steppers.keys()), for method in the wrapper
names, get_stepper_kernel stores an entry when has_stepper_loop(dest,
method).  The defaultdict(dict) data[method][dest] is modelled as this flat
insertion-ordered list: per method, destinations appear in sorted order. -/
def template_data (steppers : List (String × Stepper))
    (wrapper_names : List String) : List DataEntry :=
  (sorted_dest_names steppers).flatMap fun dest =>
    wrapper_names.filterMap fun method =>
      match lookupStepper steppers dest with
      | none => none
      | some st =>
        if has_stepper_loop st method then
          some ⟨method, dest, stepper_kernel_name method dest,
                stepper_data_fields st method⟩
        else none

/-- The entries written into helper.py_data by get_py_stage_code during the
same render: an entry keyed 'py_' + method per destination whose stepper
has that hook attribute. -/
def template_py_data (steppers : List (String × Stepper))
    (wrapper_names : List String) : List (String × String) :=
  (sorted_dest_names steppers).flatMap fun dest =>
    wrapper_names.filterMap fun method =>
      match lookupStepper steppers dest with
      | none => none
      | some st =>
        if method ∈ st.py_stages then some ("py_" ++ method, dest) else none

/-- _setup_call_data, kernel-call half: for each data entry, build
calls[method][dest] = (call, all_args, dest) with
all_args = [q, None, None] + late accessors, one accessor per field name x
capturing (dest.gpu, x[2:]).  Per method, the entries keep their insertion
order. -/
def _setup_call_data_calls (data : List DataEntry) :
    List (String × CallEntry) :=
  data.map fun e =>
    (e.method,
     { kernel := e.kernel
       destName := e.destName
       all_args := [Arg.queue, Arg.hole, Arg.hole] ++
         e.fields.map fun x => Arg.acc e.destName (strDrop x 2) })

/-- setup_compiled_module followed by OpenCLIntegrator construction: render
get_code (filling data and py_data), run _setup_call_data, and record the
wrapper names whose attributes _setup_methods installs. -/
def buildHelper (steppers : List (String × Stepper)) : Helper :=
  let wrapper_names := get_stepper_method_wrapper_names steppers
  { calls := _setup_call_data_calls (template_data steppers wrapper_names)
    py_calls := template_py_data steppers wrapper_names
    wrapper_names := wrapper_names }

/-- Modelled from the spec: OpenCLConverter.parse_instance (pysph.cpy
translator, not under src/) translates one update-rule variant; stepper
instances carry no state, so its output is a function of the class. -/
def parse_instance (cls : String) : String :=
  "// translated " ++ cls

/-- get_stepper_code: classes[cls] = stepper for each destination (a dict,
so each class name is kept once), then one parse_instance per class in
sorted class-name order. -/
def get_stepper_code_classes (steppers : List (String × Stepper)) :
    List String :=
  (steppers.map fun p => p.2.cls).dedup

/-- The wrapper list '\n'.join(...) of get_stepper_code, one translation
per class, in sorted class-name order. -/
def get_stepper_code (steppers : List (String × Stepper)) : String :=
  let wrappers := ((get_stepper_code_classes steppers).insertionSort
      (fun a b => strLe a b = true)).map parse_instance
  String.intercalate "\n" wrappers

end IntegratorOpenCLHelper

open IntegratorOpenCLHelper OpenCLIntegrator

/-- The sequence of destination names of the kernel launches in a trace, in
launch order. -/
def launchDests (tr : List Event) : List String :=
  tr.filterMap fun e =>
    match e with
    | Event.kernelLaunch _ d _ => some d
    | _ => none

/-- The sequence of destination names of the host hook invocations in a
trace, in invocation order. -/
def hookDests (tr : List Event) : List String :=
  tr.filterMap fun e =>
    match e with
    | Event.hookCall _ d _ _ => some d
    | _ => none

/-- The destination's stepper defines the given stage method
(has_stepper_loop through the steppers table). -/
def definesStage (steppers : List (String × Stepper)) (m : String)
    (d : String) : Bool :=
  match lookupStepper steppers d with
  | some st => has_stepper_loop st m
  | none => false

/-- The destination's stepper has the host hook attribute py_{m}. -/
def hasPyHook (steppers : List (String × Stepper)) (m : String)
    (d : String) : Bool :=
  match lookupStepper steppers d with
  | some st => decide (m ∈ st.py_stages)
  | none => false

/-! Concrete fixtures used by the witnesses. -/

/-- A two-stage stepper with a py_stage1 host hook. -/
def stEuler : Stepper :=
  { cls := "EulerStep"
    stages := [("stage1", ["self", "d_idx", "d_x", "d_u", "dt"]),
               ("stage2", ["self", "d_idx", "d_x", "d_u", "t", "dt"])]
    py_stages := ["stage1"] }

/-- A one-stage stepper of a different class, with no host hook. -/
def stWC : Stepper :=
  { cls := "WCSPHStep"
    stages := [("stage1", ["self", "d_idx", "d_x", "dt"])]
    py_stages := [] }

/-- Two destinations with different steppers, given in non-sorted order. -/
def exSteppers : List (String × Stepper) :=
  [("fluid", stEuler), ("boundary", stWC)]

/-- Two destinations sharing one stepper (one UpdateRule variant). -/
def exSteppersShared : List (String × Stepper) :=
  [("fluid", stEuler), ("solid", stEuler)]

/-- One destination defining only stage1 (stage2 absent everywhere). -/
def exC2Steppers : List (String × Stepper) :=
  [("fluid", stWC)]

/-- A world state. -/
def exWorldA : World :=
  { n_real := fun _ => 5, bufData := fun _ _ => 100 }

/-- A later world state: the particle count changed and the buffers were
reallocated since exWorldA. -/
def exWorldB : World :=
  { n_real := fun _ => 7, bufData := fun _ _ => 200 }

/-- An integrator state over the two-destination fixture. -/
def exState : OpenCLIntegrator.State :=
  { helper := buildHelper exSteppers
    orig_t := 0
    t := 0
    dt := 1
    has_post_stage_callback := true
    has_parallel_manager := false
    use_double := true }

/-- An integrator state over the stage2-less fixture. -/
def exC2State : OpenCLIntegrator.State :=
  { helper := buildHelper exC2Steppers
    orig_t := 0
    t := 0
    dt := 1
    has_post_stage_callback := false
    has_parallel_manager := false
    use_double := true }

/-- The built call entry of (stage1, boundary) in the two-destination
fixture. -/
def exEntryB : CallEntry :=
  { kernel := "stage1_boundary"
    destName := "boundary"
    all_args := [Arg.queue, Arg.hole, Arg.hole, Arg.acc "boundary" "x"] }

/-- The built call entry of (stage2, fluid) in the two-destination
fixture. -/
def exEntryF2 : CallEntry :=
  { kernel := "stage2_fluid"
    destName := "fluid"
    all_args := [Arg.queue, Arg.hole, Arg.hole, Arg.acc "fluid" "x",
                 Arg.acc "fluid" "u"] }

/-- The argument list of the (stage1, fluid) launch under exWorldB with
t = 0, dt = 1 in double precision. -/
def exArgs : List Val :=
  [Val.queue, Val.gsize 7, Val.lsizeNone, Val.buf 200, Val.buf 200,
   Val.scalar (asarray 0 Precision.double),
   Val.scalar (asarray 1 Precision.double)]

/-- A concrete external type registry. -/
def exTyped : String → String := fun s => "GLOBAL_MEM double* " ++ s

end PySPH

/-!
Shared lemmas about the built tables and the stage traces.
-/

namespace PySPH
open IntegratorOpenCLHelper OpenCLIntegrator

/-- Appending on the left of a string is injective. -/
lemma string_append_left_cancel (s a b : String) (h : s ++ a = s ++ b) :
    a = b := by
  have h2 := congrArg String.data h
  simp only [String.data_append] at h2
  exact String.ext (List.append_cancel_left h2)

/-- Kernel names method_dest are distinct for distinct destinations. -/
lemma stepper_kernel_name_inj (m d1 d2 : String) (h : d1 ≠ d2) :
    stepper_kernel_name m d1 ≠ stepper_kernel_name m d2 := by
  intro hc
  exact h (string_append_left_cancel _ _ _ hc)

/-- A flatMap of conditional singletons is a filter. -/
lemma flatMap_filter_eq (l : List String) (p : String → Bool) :
    (l.flatMap fun d => if p d then [d] else []) = l.filter p := by
  induction l with
  | nil => rfl
  | cons a l ih =>
    by_cases h : p a <;> simp [List.flatMap_cons, h, ih, List.filter_cons]

/-- One destination block of the data table, filtered to one method. -/
lemma template_block_filter (dest : String) (st : Stepper)
    (W : List String) (m : String) (hW : W.Nodup) :
    ((W.filterMap fun method =>
        if has_stepper_loop st method then
          some (⟨method, dest, stepper_kernel_name method dest,
                 stepper_data_fields st method⟩ : DataEntry)
        else none).filter (fun e => e.method == m)).map (fun e => e.destName)
    = if m ∈ W ∧ has_stepper_loop st m then [dest] else [] := by
  induction W with
  | nil => simp
  | cons a W ih =>
    have ihW := ih hW.of_cons
    rw [List.filterMap_cons]
    by_cases ham : a = m
    · subst ham
      have hnm : a ∉ W := (List.nodup_cons.mp hW).1
      by_cases hpa : has_stepper_loop st a
      · simp [hpa, List.filter_cons, ihW, hnm]
      · simp [hpa, ihW, hnm]
    · have hbeq : (a == m) = false := by
        simp only [beq_eq_false_iff_ne, ne_eq]; exact ham
      have ham2 : m ≠ a := Ne.symm ham
      by_cases hpa : has_stepper_loop st a
      · simp [hpa, List.filter_cons, hbeq, ihW, ham2]
      · simp [hpa, ihW, ham2]

lemma wrapper_names_nodup (steppers : List (String × Stepper)) :
    (get_stepper_method_wrapper_names steppers).Nodup :=
  List.nodup_dedup _

/-- The destination names of one method's data entries: the sorted
destination list filtered to the destinations defining the stage. -/
lemma template_data_destNames (steppers : List (String × Stepper))
    (m : String) :
    ((template_data steppers (get_stepper_method_wrapper_names steppers)).filter
        (fun e => e.method == m)).map (fun e => e.destName)
    = if m ∈ get_stepper_method_wrapper_names steppers then
        (sorted_dest_names steppers).filter (definesStage steppers m)
      else [] := by
  have hW := wrapper_names_nodup steppers
  rw [template_data, List.filter_flatMap, List.map_flatMap]
  by_cases hm : m ∈ get_stepper_method_wrapper_names steppers
  · have hstep : ∀ d ∈ sorted_dest_names steppers,
        ((((get_stepper_method_wrapper_names steppers).filterMap fun method =>
            match lookupStepper steppers d with
            | none => none
            | some st =>
              if has_stepper_loop st method then
                some (⟨method, d, stepper_kernel_name method d,
                       stepper_data_fields st method⟩ : DataEntry)
              else none).filter (fun e => e.method == m)).map
          (fun e => e.destName))
        = if definesStage steppers m d then [d] else [] := by
      intro d _
      cases hls : lookupStepper steppers d with
      | none => simp [hls, definesStage]
      | some st =>
        simp only [hls]
        rw [template_block_filter d st _ m hW]
        simp [definesStage, hls, hm]
    rw [List.flatMap_congr hstep, flatMap_filter_eq, if_pos hm]
  · have hstep : ∀ d ∈ sorted_dest_names steppers,
        ((((get_stepper_method_wrapper_names steppers).filterMap fun method =>
            match lookupStepper steppers d with
            | none => none
            | some st =>
              if has_stepper_loop st method then
                some (⟨method, d, stepper_kernel_name method d,
                       stepper_data_fields st method⟩ : DataEntry)
              else none).filter (fun e => e.method == m)).map
          (fun e => e.destName))
        = [] := by
      intro d _
      cases hls : lookupStepper steppers d with
      | none => simp [hls]
      | some st =>
        simp only [hls]
        rw [template_block_filter d st _ m hW]
        simp [hm]
    rw [List.flatMap_congr hstep, if_neg hm]
    simp

lemma py_key_beq_false (a m : String) (h : a ≠ m) :
    (("py_" ++ a == "py_" ++ m) = false) := by
  simp only [beq_eq_false_iff_ne, ne_eq]
  intro hc
  exact h (string_append_left_cancel _ _ _ hc)

/-- One destination block of the py_data table, filtered to one stage. -/
lemma template_py_block_filter (dest : String) (st : Stepper)
    (W : List String) (m : String) (hW : W.Nodup) :
    ((W.filterMap fun method =>
        if method ∈ st.py_stages then some ("py_" ++ method, dest)
        else none).filter (fun q => q.1 == "py_" ++ m)).map Prod.snd
    = if m ∈ W ∧ m ∈ st.py_stages then [dest] else [] := by
  induction W with
  | nil => simp
  | cons a W ih =>
    have ihW := ih hW.of_cons
    rw [List.filterMap_cons]
    by_cases ham : a = m
    · subst ham
      have hnm : a ∉ W := (List.nodup_cons.mp hW).1
      by_cases hpa : a ∈ st.py_stages
      · simp [hpa, List.filter_cons, ihW, hnm]
      · simp [hpa, ihW, hnm]
    · have hbeq := py_key_beq_false a m ham
      have ham2 : m ≠ a := Ne.symm ham
      by_cases hpa : a ∈ st.py_stages
      · simp [hpa, List.filter_cons, hbeq, ihW, ham2]
      · simp [hpa, ihW, ham2]

/-- The destination names of one stage's host-hook entries: the sorted
destination list filtered to the destinations whose stepper has the hook. -/
lemma template_py_data_destNames (steppers : List (String × Stepper))
    (m : String) :
    ((template_py_data steppers
        (get_stepper_method_wrapper_names steppers)).filter
        (fun q => q.1 == "py_" ++ m)).map Prod.snd
    = if m ∈ get_stepper_method_wrapper_names steppers then
        (sorted_dest_names steppers).filter (hasPyHook steppers m)
      else [] := by
  have hW := wrapper_names_nodup steppers
  rw [template_py_data, List.filter_flatMap, List.map_flatMap]
  by_cases hm : m ∈ get_stepper_method_wrapper_names steppers
  · have hstep : ∀ d ∈ sorted_dest_names steppers,
        ((((get_stepper_method_wrapper_names steppers).filterMap fun method =>
            match lookupStepper steppers d with
            | none => none
            | some st =>
              if method ∈ st.py_stages then some ("py_" ++ method, d)
              else none).filter (fun q => q.1 == "py_" ++ m)).map Prod.snd)
        = if hasPyHook steppers m d then [d] else [] := by
      intro d _
      cases hls : lookupStepper steppers d with
      | none => simp [hls, hasPyHook]
      | some st =>
        simp only [hls]
        rw [template_py_block_filter d st _ m hW]
        simp [hasPyHook, hls, hm]
    rw [List.flatMap_congr hstep, flatMap_filter_eq, if_pos hm]
  · have hstep : ∀ d ∈ sorted_dest_names steppers,
        ((((get_stepper_method_wrapper_names steppers).filterMap fun method =>
            match lookupStepper steppers d with
            | none => none
            | some st =>
              if method ∈ st.py_stages then some ("py_" ++ method, d)
              else none).filter (fun q => q.1 == "py_" ++ m)).map Prod.snd)
        = [] := by
      intro d _
      cases hls : lookupStepper steppers d with
      | none => simp [hls]
      | some st =>
        simp only [hls]
        rw [template_py_block_filter d st _ m hW]
        simp [hm]
    rw [List.flatMap_congr hstep, if_neg hm]
    simp

/-- The code-point comparison is total. -/
lemma dataLe_total : ∀ as bs : List Char,
    dataLe as bs = true ∨ dataLe bs as = true := by
  intro as
  induction as with
  | nil => intro bs; left; rfl
  | cons a as ih =>
    intro bs
    cases bs with
    | nil => right; rfl
    | cons b bs =>
      by_cases h1 : a.toNat < b.toNat
      · left; simp [dataLe, h1]
      · by_cases h2 : b.toNat < a.toNat
        · right; simp [dataLe, h2]
        · rcases ih bs with h | h
          · left; simp [dataLe, h1, h2, h]
          · right; simp [dataLe, h1, h2, h]

/-- The code-point comparison is transitive. -/
lemma dataLe_trans : ∀ as bs cs : List Char,
    dataLe as bs = true → dataLe bs cs = true → dataLe as cs = true := by
  intro as
  induction as with
  | nil => intro bs cs _ _; rfl
  | cons a as ih =>
    intro bs cs h1 h2
    cases bs with
    | nil => simp [dataLe] at h1
    | cons b bs =>
      cases cs with
      | nil => simp [dataLe] at h2
      | cons c cs =>
        simp only [dataLe] at h1 h2 ⊢
        by_cases hab : a.toNat < b.toNat
        · by_cases hbc : b.toNat < c.toNat
          · have hac : a.toNat < c.toNat := Nat.lt_trans hab hbc
            simp [hac]
          · by_cases hcb : c.toNat < b.toNat
            · rw [if_neg hbc, if_pos hcb] at h2
              exact absurd h2 (by simp)
            · have hac : a.toNat < c.toNat := by omega
              simp [hac]
        · by_cases hba : b.toNat < a.toNat
          · rw [if_neg hab, if_pos hba] at h1
            exact absurd h1 (by simp)
          · rw [if_neg hab, if_neg hba] at h1
            by_cases hbc : b.toNat < c.toNat
            · have hac : a.toNat < c.toNat := by omega
              simp [hac]
            · by_cases hcb : c.toNat < b.toNat
              · rw [if_neg hbc, if_pos hcb] at h2
                exact absurd h2 (by simp)
              · rw [if_neg hbc, if_neg hcb] at h2
                have hac : ¬ a.toNat < c.toNat := by omega
                have hca : ¬ c.toNat < a.toNat := by omega
                rw [if_neg hac, if_neg hca]
                exact ih bs cs h1 h2

instance strLe_isTotal : IsTotal String (fun a b => strLe a b = true) :=
  ⟨fun a b => dataLe_total a.data b.data⟩

instance strLe_isTrans : IsTrans String (fun a b => strLe a b = true) :=
  ⟨fun a b c => dataLe_trans a.data b.data c.data⟩

/-- sorted(...) is sorted for the lexicographic string order. -/
lemma sorted_dest_names_sorted (steppers : List (String × Stepper)) :
    List.Sorted (fun a b => strLe a b = true) (sorted_dest_names steppers) :=
  List.sorted_insertionSort _ _

/-- Lookup of one method's call entries after the build. -/
lemma callsFor_buildHelper (steppers : List (String × Stepper)) (m : String) :
    (buildHelper steppers).callsFor m =
      ((template_data steppers (get_stepper_method_wrapper_names steppers)).filter
        (fun e => e.method == m)).map (fun e =>
          { kernel := e.kernel
            destName := e.destName
            all_args := [Arg.queue, Arg.hole, Arg.hole] ++
              e.fields.map fun x => Arg.acc e.destName (strDrop x 2) }) := by
  simp only [buildHelper, Helper.callsFor, _setup_call_data_calls,
    List.filter_map, List.map_map]
  rfl

/-- Lookup of one stage's host-hook destinations after the build. -/
lemma pyCallsFor_buildHelper (steppers : List (String × Stepper))
    (k : String) :
    (buildHelper steppers).pyCallsFor k =
      ((template_py_data steppers
          (get_stepper_method_wrapper_names steppers)).filter
        (fun q => q.1 == k)).map Prod.snd := rfl

/-- Clean closed form of the _do_stage trace over a built helper: all host
hooks first, then one launch per call entry, with the particle count and
every buffer address read from the World current at this invocation. -/
lemma do_stage_trace (steppers : List (String × Stepper)) (w : World)
    (ud : Bool) (t dt : ℚ) (m : String) :
    _do_stage (buildHelper steppers) w ud t dt m =
      (((template_py_data steppers
            (get_stepper_method_wrapper_names steppers)).filter
          (fun q => q.1 == "py_" ++ m)).map fun q =>
        Event.hookCall ("py_" ++ m) q.2
          (asarray t (if ud then Precision.double else Precision.single))
          (asarray dt (if ud then Precision.double else Precision.single))) ++
      (((template_data steppers
            (get_stepper_method_wrapper_names steppers)).filter
          (fun e => e.method == m)).map fun e =>
        Event.kernelLaunch e.kernel e.destName
          ([Val.queue, Val.gsize (w.n_real e.destName), Val.lsizeNone] ++
           e.fields.map (fun x => Val.buf (w.bufData e.destName (strDrop x 2))) ++
           [Val.scalar (asarray t
              (if ud then Precision.double else Precision.single)),
            Val.scalar (asarray dt
              (if ud then Precision.double else Precision.single))])) := by
  rw [_do_stage, callsFor_buildHelper, pyCallsFor_buildHelper]
  simp only [List.map_map]
  congr 1
  refine List.map_congr_left ?_
  intro e _
  simp [Arg.resolve, _getter, List.map_map, Function.comp]

end PySPH

namespace PySPH
open IntegratorOpenCLHelper OpenCLIntegrator

lemma filterMap_some_eq_map {A B : Type} (f : A → B) (l : List A) :
    l.filterMap (fun x => some (f x)) = l.map f := by
  induction l with
  | nil => rfl
  | cons a l ih => simp [List.filterMap_cons, ih]

lemma do_stage_launchDests (steppers : List (String × Stepper)) (w : World)
    (ud : Bool) (t dt : ℚ) (m : String) :
    launchDests (_do_stage (buildHelper steppers) w ud t dt m) =
      ((template_data steppers
          (get_stepper_method_wrapper_names steppers)).filter
        (fun e => e.method == m)).map (fun e => e.destName) := by
  rw [launchDests, do_stage_trace, List.filterMap_append, List.filterMap_map,
    List.filterMap_map]
  simp only [Function.comp_def]
  rw [filterMap_some_eq_map]
  simp

lemma do_stage_hookDests (steppers : List (String × Stepper)) (w : World)
    (ud : Bool) (t dt : ℚ) (m : String) :
    hookDests (_do_stage (buildHelper steppers) w ud t dt m) =
      ((template_py_data steppers
          (get_stepper_method_wrapper_names steppers)).filter
        (fun q => q.1 == "py_" ++ m)).map Prod.snd := by
  rw [hookDests, do_stage_trace, List.filterMap_append, List.filterMap_map,
    List.filterMap_map]
  simp only [Function.comp_def]
  rw [filterMap_some_eq_map]
  simp

/-- C5: within every stage execution the destinations are processed (hooks
invoked, kernels launched) in a deterministic order: the lexicographically
sorted destination-name list filtered to the participating destinations,
for every World, time, timestep and precision alike. -/
theorem claim_C5_dest_order :
    ∀ (steppers : List (String × Stepper)) (w : World) (ud : Bool)
      (t dt : ℚ) (m : String),
    launchDests (_do_stage (buildHelper steppers) w ud t dt m) =
      (if m ∈ get_stepper_method_wrapper_names steppers then
        (sorted_dest_names steppers).filter (definesStage steppers m)
       else []) ∧
    hookDests (_do_stage (buildHelper steppers) w ud t dt m) =
      (if m ∈ get_stepper_method_wrapper_names steppers then
        (sorted_dest_names steppers).filter (hasPyHook steppers m)
       else []) ∧
    List.Sorted (fun a b => strLe a b = true)
      (launchDests (_do_stage (buildHelper steppers) w ud t dt m)) ∧
    List.Sorted (fun a b => strLe a b = true)
      (hookDests (_do_stage (buildHelper steppers) w ud t dt m)) := by
  intro steppers w ud t dt m
  have h1 := do_stage_launchDests steppers w ud t dt m
  have h2 := do_stage_hookDests steppers w ud t dt m
  rw [template_data_destNames] at h1
  rw [template_py_data_destNames] at h2
  refine ⟨h1, h2, ?_, ?_⟩
  · rw [h1]
    by_cases hm : m ∈ get_stepper_method_wrapper_names steppers
    · rw [if_pos hm]
      exact (sorted_dest_names_sorted steppers).filter _
    · rw [if_neg hm]
      exact List.sorted_nil
  · rw [h2]
    by_cases hm : m ∈ get_stepper_method_wrapper_names steppers
    · rw [if_pos hm]
      exact (sorted_dest_names_sorted steppers).filter _
    · rw [if_neg hm]
      exact List.sorted_nil

end PySPH

namespace PySPH
open IntegratorOpenCLHelper OpenCLIntegrator

/-- C1: for each destination with a call descriptor for the executed stage,
the stage execution (i) invokes the host pre-stage hook py_{method}, when
one exists for that destination, synchronously with (destination, t, dt)
cast to the active precision, before any kernel launch of the stage; then
(ii) reads the destination's current live particle count, (iii) resolves all
late accessors against the destination's current buffer set, and (iv)
launches the kernel with (queue, particle count, local size None, resolved
buffer arguments, t, dt) in that fixed positional order. -/
theorem claim_C1_stage_execution :
    ∀ (steppers : List (String × Stepper)) (w : World) (ud : Bool)
      (t dt : ℚ) (m : String) (c : CallEntry),
    c ∈ (buildHelper steppers).callsFor m →
    ∃ hookEvs launchEvs,
      _do_stage (buildHelper steppers) w ud t dt m = hookEvs ++ launchEvs ∧
      (∀ d ∈ (buildHelper steppers).pyCallsFor ("py_" ++ m),
        Event.hookCall ("py_" ++ m) d
          (asarray t (if ud then Precision.double else Precision.single))
          (asarray dt (if ud then Precision.double else Precision.single))
          ∈ hookEvs) ∧
      (∀ e ∈ hookEvs, ∃ d, e = Event.hookCall ("py_" ++ m) d
          (asarray t (if ud then Precision.double else Precision.single))
          (asarray dt (if ud then Precision.double else Precision.single))) ∧
      Event.kernelLaunch c.kernel c.destName
        ([Val.queue, Val.gsize (w.n_real c.destName), Val.lsizeNone] ++
         (c.all_args.drop 3).map (Arg.resolve w) ++
         [Val.scalar (asarray t
            (if ud then Precision.double else Precision.single)),
          Val.scalar (asarray dt
            (if ud then Precision.double else Precision.single))])
        ∈ launchEvs := by
  intro steppers w ud t dt m c hc
  refine ⟨_, _, do_stage_trace steppers w ud t dt m, ?_, ?_, ?_⟩
  · intro d hd
    rw [pyCallsFor_buildHelper] at hd
    obtain ⟨q, hq, rfl⟩ := List.mem_map.mp hd
    exact List.mem_map_of_mem _ hq
  · intro e he
    obtain ⟨q, _, rfl⟩ := List.mem_map.mp he
    exact ⟨q.2, rfl⟩
  · rw [callsFor_buildHelper] at hc
    obtain ⟨e, he, rfl⟩ := List.mem_map.mp hc
    have : Event.kernelLaunch e.kernel e.destName
        ([Val.queue, Val.gsize (w.n_real e.destName), Val.lsizeNone] ++
         e.fields.map (fun x => Val.buf (w.bufData e.destName (strDrop x 2))) ++
         [Val.scalar (asarray t
            (if ud then Precision.double else Precision.single)),
          Val.scalar (asarray dt
            (if ud then Precision.double else Precision.single))])
        ∈ (((template_data steppers
              (get_stepper_method_wrapper_names steppers)).filter
            (fun e => e.method == m)).map fun e =>
          Event.kernelLaunch e.kernel e.destName
            ([Val.queue, Val.gsize (w.n_real e.destName), Val.lsizeNone] ++
             e.fields.map (fun x =>
               Val.buf (w.bufData e.destName (strDrop x 2))) ++
             [Val.scalar (asarray t
                (if ud then Precision.double else Precision.single)),
              Val.scalar (asarray dt
                (if ud then Precision.double else Precision.single))])) :=
      List.mem_map_of_mem _ he
    simpa [Arg.resolve, _getter, List.map_map, Function.comp] using this

/-- C4: the particle-count argument of every kernel launch of a stage is the
launch-time World's live count for that launch's destination; a count from
any other moment (e.g. the World of an earlier stage, when the count has
since changed) is never used. -/
theorem claim_C4_count_freshness :
    ∀ (steppers : List (String × Stepper)) (wPrev wNow : World) (ud : Bool)
      (t dt : ℚ) (m k d : String) (args : List Val),
    Event.kernelLaunch k d args ∈
        _do_stage (buildHelper steppers) wNow ud t dt m →
    args[1]? = some (Val.gsize (wNow.n_real d)) ∧
    (wPrev.n_real d ≠ wNow.n_real d →
      args[1]? ≠ some (Val.gsize (wPrev.n_real d))) := by
  intro steppers wPrev wNow ud t dt m k d args hmem
  rw [do_stage_trace] at hmem
  rcases List.mem_append.mp hmem with h | h
  · obtain ⟨q, _, heq⟩ := List.mem_map.mp h
    exact absurd heq (by simp)
  · obtain ⟨e, _, heq⟩ := List.mem_map.mp h
    obtain ⟨hk, hd, hargs⟩ := Event.kernelLaunch.inj heq.symm
    subst hd
    subst hargs
    constructor
    · rfl
    · intro hne hstale
      simp at hstale
      exact hne hstale.symm

/-- C3: call descriptors store only unresolved late accessors in their
device-buffer slots; at each invocation every accessor is resolved against
the World current at that moment, so a buffer reallocated since an earlier
World (setup or a previous stage) is read at its new address, never at the
address it had before. -/
theorem claim_C3_late_binding :
    ∀ (steppers : List (String × Stepper)) (wSetup wNow : World) (ud : Bool)
      (t dt : ℚ) (m : String) (c : CallEntry),
    c ∈ (buildHelper steppers).callsFor m →
    (∀ a ∈ c.all_args.drop 3, ∃ f, a = Arg.acc c.destName f) ∧
    Event.kernelLaunch c.kernel c.destName
      ([Val.queue, Val.gsize (wNow.n_real c.destName), Val.lsizeNone] ++
       (c.all_args.drop 3).map (Arg.resolve wNow) ++
       [Val.scalar (asarray t
          (if ud then Precision.double else Precision.single)),
        Val.scalar (asarray dt
          (if ud then Precision.double else Precision.single))])
      ∈ _do_stage (buildHelper steppers) wNow ud t dt m ∧
    (∀ d f, Arg.acc d f ∈ c.all_args →
      Arg.resolve wNow (Arg.acc d f) = Val.buf (wNow.bufData d f) ∧
      (wSetup.bufData d f ≠ wNow.bufData d f →
        Arg.resolve wNow (Arg.acc d f) ≠ Val.buf (wSetup.bufData d f))) := by
  intro steppers wSetup wNow ud t dt m c hc
  refine ⟨?_, ?_, ?_⟩
  · rw [callsFor_buildHelper] at hc
    obtain ⟨e, he, rfl⟩ := List.mem_map.mp hc
    intro a ha
    simp only [List.cons_append, List.nil_append, List.drop_succ_cons,
      List.drop_zero] at ha
    obtain ⟨x, _, rfl⟩ := List.mem_map.mp ha
    exact ⟨strDrop x 2, rfl⟩
  · rw [do_stage_trace]
    rw [callsFor_buildHelper] at hc
    obtain ⟨e, he, rfl⟩ := List.mem_map.mp hc
    refine List.mem_append.mpr (Or.inr ?_)
    have := List.mem_map_of_mem (fun e =>
      Event.kernelLaunch e.kernel e.destName
        ([Val.queue, Val.gsize (wNow.n_real e.destName), Val.lsizeNone] ++
         e.fields.map (fun x =>
           Val.buf (wNow.bufData e.destName (strDrop x 2))) ++
         [Val.scalar (asarray t
            (if ud then Precision.double else Precision.single)),
          Val.scalar (asarray dt
            (if ud then Precision.double else Precision.single))])) he
    simpa [Arg.resolve, _getter, List.map_map, Function.comp] using this
  · intro d f _
    refine ⟨rfl, ?_⟩
    intro hne hc2
    simp only [Arg.resolve, _getter, Val.buf.injEq] at hc2
    exact hne hc2.symm

/-- C8: compute_accelerations performs the domain-redistribution update (only
when a parallel manager is configured), then the spatial-index update, then
the acceleration evaluation with (t, dt); and a stage execution emits only
host hook calls and kernel launches, never a spatial-index update or an
acceleration evaluation. -/
theorem claim_C8_accel_recompute :
    (∀ s : State, compute_accelerations s =
      (if s.has_parallel_manager then [Event.pm_update] else []) ++
      [Event.nnps_update, Event.accel_compute s.t s.dt]) ∧
    (∀ (steppers : List (String × Stepper)) (w : World) (ud : Bool)
       (t dt : ℚ) (m : String) (e : Event),
      e ∈ _do_stage (buildHelper steppers) w ud t dt m →
      (∃ meth d a b, e = Event.hookCall meth d a b) ∨
      (∃ k d args, e = Event.kernelLaunch k d args)) := by
  constructor
  · intro s
    cases h : s.has_parallel_manager <;> simp [compute_accelerations, h]
  · intro steppers w ud t dt m e he
    rw [do_stage_trace] at he
    rcases List.mem_append.mp he with h | h
    · obtain ⟨q, _, rfl⟩ := List.mem_map.mp h
      exact Or.inl ⟨_, _, _, _, rfl⟩
    · obtain ⟨en, _, rfl⟩ := List.mem_map.mp h
      exact Or.inr ⟨_, _, _, rfl⟩

end PySPH

namespace PySPH
open IntegratorOpenCLHelper OpenCLIntegrator

/-- C6: step(t, dt) first sets orig_t = t, t = t and dt = dt on the runtime
state, leaving every other field unchanged, and then executes the captured
one_timestep operations in order (the trace of a concatenation is the
concatenation of the traces, threading the state left to right). -/
theorem claim_C6_step :
    ∀ (w : World) (s : State) (prog : List Op) (t dt : ℚ),
    (step w s prog t dt =
      runProgram w { s with orig_t := t, t := t, dt := dt } prog) ∧
    (∀ (s0 : State) (ops1 ops2 : List Op),
      runProgram w s0 (ops1 ++ ops2) =
        (runProgram w s0 ops1).bind fun p =>
          (runProgram w p.1 ops2).map fun q => (q.1, p.2 ++ q.2)) := by
  intro w s prog t dt
  constructor
  · rfl
  · intro s0 ops1 ops2
    induction ops1 generalizing s0 with
    | nil =>
      simp only [List.nil_append, runProgram, Except.bind]
      cases h : runProgram w s0 ops2 with
      | error e => simp [Except.map]
      | ok q => simp [Except.map]
    | cons op ops ih =>
      simp only [List.cons_append, runProgram]
      cases h : runOp w s0 op with
      | error e => simp [Except.bind]
      | ok p =>
        obtain ⟨s1, ev⟩ := p
        simp only [List.append_eq]
        rw [ih s1]
        cases h2 : runProgram w s1 ops with
        | error e => simp [Except.bind]
        | ok q =>
          obtain ⟨s2, evs⟩ := q
          simp only [Except.bind]
          cases h3 : runProgram w s2 ops2 with
          | error e => simp [Except.map]
          | ok r => simp [Except.map, List.append_assoc]

/-- C7: do_post_stage(stage_dt, stage) sets t = orig_t + stage_dt and, when
a post-stage callback is registered, invokes it exactly once with the
updated t, the unchanged dt, and the stage index. -/
theorem claim_C7_do_post_stage :
    ∀ (s : State) (stage_dt : ℚ) (stage : ℕ),
    s.has_post_stage_callback = true →
    do_post_stage s stage_dt stage =
      ({ s with t := s.orig_t + stage_dt },
       [Event.post_stage_callback (s.orig_t + stage_dt) s.dt stage]) := by
  intro s stage_dt stage h
  simp [do_post_stage, h]

/-- C10: do_post_stage modifies only the t field of the runtime state
(orig_t, dt, the helper tables, the callback registration, the parallel
manager flag and the precision flag are all unchanged), and with no
registered callback it still sets t = orig_t + stage_dt and returns without
any event. -/
theorem claim_C10_post_stage_frame :
    ∀ (s : State) (stage_dt : ℚ) (stage : ℕ),
    (do_post_stage s stage_dt stage).1 =
      { s with t := s.orig_t + stage_dt } ∧
    (do_post_stage s stage_dt stage).1.orig_t = s.orig_t ∧
    (do_post_stage s stage_dt stage).1.dt = s.dt ∧
    (do_post_stage s stage_dt stage).1.helper = s.helper ∧
    (do_post_stage s stage_dt stage).1.has_post_stage_callback =
      s.has_post_stage_callback ∧
    (do_post_stage s stage_dt stage).1.has_parallel_manager =
      s.has_parallel_manager ∧
    (do_post_stage s stage_dt stage).1.use_double = s.use_double ∧
    (s.has_post_stage_callback = false →
      do_post_stage s stage_dt stage =
        ({ s with t := s.orig_t + stage_dt }, [])) := by
  intro s stage_dt stage
  refine ⟨rfl, rfl, rfl, rfl, rfl, rfl, rfl, ?_⟩
  intro h
  simp [do_post_stage, h]

end PySPH


namespace PySPH
open IntegratorOpenCLHelper OpenCLIntegrator

/-- A successful association-list lookup returns a pair of the list. -/
lemma lookup_mem {B : Type} {l : List (String × B)} {a : String} {b : B}
    (h : List.lookup a l = some b) : (a, b) ∈ l := by
  induction l with
  | nil => simp [List.lookup] at h
  | cons p l ih =>
    obtain ⟨pa, pb⟩ := p
    rw [List.lookup_cons] at h
    by_cases hab : pa = a
    · subst hab
      simp only [beq_self_eq_true] at h
      simp only [List.mem_cons, Prod.mk.injEq, true_and]
      exact Or.inl (Option.some.inj h).symm
    · have hbeq : (a == pa) = false := by
        simp only [beq_eq_false_iff_ne, ne_eq]
        exact fun hc => hab hc.symm
      rw [hbeq] at h
      simp only [List.mem_cons]
      exact Or.inr (ih h)

/-- C2 (amended): a stage name that no stepper defines is not rejected at
setup; the wrapper attribute is simply never created, so the captured
procedure fails with an AttributeError at the moment it executes that stage
operation, during the step.  A stage some destinations lack is no error at
all: the launches are exactly for the destinations whose stepper defines the
stage, the others are silently skipped. -/
theorem claim_C2_missing_stage :
    ∀ (steppers : List (String × Stepper)) (w : World) (s : State)
      (m : String),
    s.helper = buildHelper steppers →
    ((m ∉ (buildHelper steppers).wrapper_names →
       runOp w s (Op.run_stage m) =
         Except.error ("AttributeError: " ++ m)) ∧
     (m ∈ (buildHelper steppers).wrapper_names →
       runOp w s (Op.run_stage m) =
         Except.ok (s, _do_stage (buildHelper steppers) w s.use_double
           s.t s.dt m) ∧
       launchDests (_do_stage (buildHelper steppers) w s.use_double
           s.t s.dt m) =
         (sorted_dest_names steppers).filter (definesStage steppers m))) := by
  intro steppers w s m hh
  constructor
  · intro hm
    rw [runOp, hh]
    rw [if_neg hm]
  · intro hm
    constructor
    · rw [runOp, hh]
      rw [if_pos hm]
    · have hm2 : m ∈ get_stepper_method_wrapper_names steppers := hm
      rw [do_stage_launchDests, template_data_destNames, if_pos hm2]

/-- C2 counterexample to the claim as stated: with one destination (fluid)
defining only stage1, the setup completes normally and produces this call
table (no error is raised before a timestep), and a timestep whose program
runs stage2 fails with an AttributeError from inside the step execution
itself, not before it. -/
theorem claim_C2_counterexample :
    buildHelper exC2Steppers =
      { calls := [("stage1",
          { kernel := "stage1_fluid"
            destName := "fluid"
            all_args := [Arg.queue, Arg.hole, Arg.hole,
                         Arg.acc "fluid" "x"] })]
        py_calls := []
        wrapper_names := ["stage1"] } ∧
    step exWorldA exC2State [Op.run_stage "stage2"] 0 1 =
      Except.error "AttributeError: stage2" := by
  constructor
  · rfl
  · rfl

/-- C9: kernel generation is deduplicated by update-rule variant but not by
destination: the variant's stepper class is translated exactly once by
get_stepper_code however many destinations use it, while two destinations
sharing the variant still get two kernel entries, keyed by (stage,
destination) and bearing distinct kernel names, whose generated bodies are
the same string (their sources differ only in the signature). -/
theorem claim_C9_kernel_dedup :
    ∀ (steppers : List (String × Stepper)) (d1 d2 m : String) (st : Stepper)
      (typed : String → String),
    lookupStepper steppers d1 = some st →
    lookupStepper steppers d2 = some st →
    d1 ≠ d2 →
    has_stepper_loop st m = true →
    ((get_stepper_code_classes steppers).count st.cls = 1 ∧
     (⟨m, d1, stepper_kernel_name m d1, stepper_data_fields st m⟩ : DataEntry)
        ∈ template_data steppers (get_stepper_method_wrapper_names steppers) ∧
     (⟨m, d2, stepper_kernel_name m d2, stepper_data_fields st m⟩ : DataEntry)
        ∈ template_data steppers (get_stepper_method_wrapper_names steppers) ∧
     stepper_kernel_name m d1 ≠ stepper_kernel_name m d2 ∧
     get_stepper_kernel_source typed st d1 m =
       get_kernel_definition (stepper_kernel_name m d1)
         ((stepper_data_fields st m ++ ["t", "dt"]).map typed) ++
       "\n\x7b\n" ++ stepper_kernel_body st m ++ "\n\x7d\n" ∧
     get_stepper_kernel_source typed st d2 m =
       get_kernel_definition (stepper_kernel_name m d2)
         ((stepper_data_fields st m ++ ["t", "dt"]).map typed) ++
       "\n\x7b\n" ++ stepper_kernel_body st m ++ "\n\x7d\n") := by
  intro steppers d1 d2 m st typed hl1 hl2 hne hm
  have hp1 : (d1, st) ∈ steppers := lookup_mem hl1
  have hp2 : (d2, st) ∈ steppers := lookup_mem hl2
  have hmW : m ∈ get_stepper_method_wrapper_names steppers := by
    rw [get_stepper_method_wrapper_names, List.mem_dedup, List.mem_flatMap]
    refine ⟨(d1, st), hp1, ?_⟩
    rw [has_stepper_loop, Option.isSome_iff_exists] at hm
    obtain ⟨args, hargs⟩ := hm
    exact List.mem_map_of_mem Prod.fst (lookup_mem hargs)
  have hmem : ∀ d, lookupStepper steppers d = some st → d ∈ steppers.map Prod.fst →
      (⟨m, d, stepper_kernel_name m d, stepper_data_fields st m⟩ : DataEntry)
        ∈ template_data steppers (get_stepper_method_wrapper_names steppers) := by
    intro d hl hd
    rw [template_data, List.mem_flatMap]
    refine ⟨d, (List.mem_insertionSort _).mpr hd, ?_⟩
    rw [List.mem_filterMap]
    refine ⟨m, hmW, ?_⟩
    simp only [hl]
    rw [if_pos hm]
  refine ⟨?_, ?_, ?_, stepper_kernel_name_inj m d1 d2 hne, rfl, rfl⟩
  · refine List.count_eq_one_of_mem (List.nodup_dedup _) ?_
    rw [get_stepper_code_classes, List.mem_dedup]
    exact List.mem_map_of_mem (fun p => p.2.cls) hp1
  · exact hmem d1 hl1 (List.mem_map_of_mem Prod.fst hp1)
  · exact hmem d2 hl2 (List.mem_map_of_mem Prod.fst hp2)

end PySPH

namespace PySPH
open IntegratorOpenCLHelper OpenCLIntegrator

theorem claim_C1_witness :
    exEntryB ∈ (buildHelper exSteppers).callsFor "stage1" ∧
    (∃ hookEvs launchEvs,
      _do_stage (buildHelper exSteppers) exWorldA true 0 1 "stage1" =
        hookEvs ++ launchEvs ∧
      (∀ d ∈ (buildHelper exSteppers).pyCallsFor ("py_" ++ "stage1"),
        Event.hookCall ("py_" ++ "stage1") d
          (asarray 0 (if true then Precision.double else Precision.single))
          (asarray 1 (if true then Precision.double else Precision.single))
          ∈ hookEvs) ∧
      (∀ e ∈ hookEvs, ∃ d, e = Event.hookCall ("py_" ++ "stage1") d
          (asarray 0 (if true then Precision.double else Precision.single))
          (asarray 1 (if true then Precision.double else Precision.single))) ∧
      Event.kernelLaunch exEntryB.kernel exEntryB.destName
        ([Val.queue, Val.gsize (exWorldA.n_real exEntryB.destName),
          Val.lsizeNone] ++
         (exEntryB.all_args.drop 3).map (Arg.resolve exWorldA) ++
         [Val.scalar (asarray 0
            (if true then Precision.double else Precision.single)),
          Val.scalar (asarray 1
            (if true then Precision.double else Precision.single))])
        ∈ launchEvs) :=
  ⟨by decide,
   claim_C1_stage_execution exSteppers exWorldA true 0 1 "stage1" exEntryB
     (by decide)⟩

theorem claim_C2_witness :
    exC2State.helper = buildHelper exC2Steppers ∧
    (("stage2" ∉ (buildHelper exC2Steppers).wrapper_names →
       runOp exWorldA exC2State (Op.run_stage "stage2") =
         Except.error ("AttributeError: " ++ "stage2")) ∧
     ("stage2" ∈ (buildHelper exC2Steppers).wrapper_names →
       runOp exWorldA exC2State (Op.run_stage "stage2") =
         Except.ok (exC2State, _do_stage (buildHelper exC2Steppers) exWorldA
           exC2State.use_double exC2State.t exC2State.dt "stage2") ∧
       launchDests (_do_stage (buildHelper exC2Steppers) exWorldA
           exC2State.use_double exC2State.t exC2State.dt "stage2") =
         (sorted_dest_names exC2Steppers).filter
           (definesStage exC2Steppers "stage2"))) :=
  ⟨rfl, claim_C2_missing_stage exC2Steppers exWorldA exC2State "stage2" rfl⟩

theorem claim_C3_witness :
    exEntryF2 ∈ (buildHelper exSteppers).callsFor "stage2" ∧
    ((∀ a ∈ exEntryF2.all_args.drop 3, ∃ f, a = Arg.acc exEntryF2.destName f) ∧
     Event.kernelLaunch exEntryF2.kernel exEntryF2.destName
       ([Val.queue, Val.gsize (exWorldB.n_real exEntryF2.destName),
         Val.lsizeNone] ++
        (exEntryF2.all_args.drop 3).map (Arg.resolve exWorldB) ++
        [Val.scalar (asarray 0
           (if true then Precision.double else Precision.single)),
         Val.scalar (asarray 1
           (if true then Precision.double else Precision.single))])
       ∈ _do_stage (buildHelper exSteppers) exWorldB true 0 1 "stage2" ∧
     (∀ d f, Arg.acc d f ∈ exEntryF2.all_args →
       Arg.resolve exWorldB (Arg.acc d f) = Val.buf (exWorldB.bufData d f) ∧
       (exWorldA.bufData d f ≠ exWorldB.bufData d f →
         Arg.resolve exWorldB (Arg.acc d f) ≠
           Val.buf (exWorldA.bufData d f)))) :=
  ⟨by decide,
   claim_C3_late_binding exSteppers exWorldA exWorldB true 0 1 "stage2"
     exEntryF2 (by decide)⟩

theorem claim_C4_witness :
    Event.kernelLaunch "stage1_fluid" "fluid" exArgs ∈
      _do_stage (buildHelper exSteppers) exWorldB true 0 1 "stage1" ∧
    (exArgs[1]? = some (Val.gsize (exWorldB.n_real "fluid")) ∧
     (exWorldA.n_real "fluid" ≠ exWorldB.n_real "fluid" →
       exArgs[1]? ≠ some (Val.gsize (exWorldA.n_real "fluid")))) :=
  ⟨by decide,
   claim_C4_count_freshness exSteppers exWorldA exWorldB true 0 1 "stage1"
     "stage1_fluid" "fluid" exArgs (by decide)⟩

theorem claim_C7_witness :
    exState.has_post_stage_callback = true ∧
    do_post_stage exState (1/2) 1 =
      ({ exState with t := exState.orig_t + 1/2 },
       [Event.post_stage_callback (exState.orig_t + 1/2) exState.dt 1]) :=
  ⟨rfl, claim_C7_do_post_stage exState (1/2) 1 rfl⟩

theorem claim_C8_witness :
    Event.hookCall "py_stage1" "fluid"
        (asarray 0 Precision.double) (asarray 1 Precision.double) ∈
      _do_stage (buildHelper exSteppers) exWorldA true 0 1 "stage1" ∧
    ((∃ meth d a b, Event.hookCall "py_stage1" "fluid"
        (asarray 0 Precision.double) (asarray 1 Precision.double) =
          Event.hookCall meth d a b) ∨
     (∃ k d args, Event.hookCall "py_stage1" "fluid"
        (asarray 0 Precision.double) (asarray 1 Precision.double) =
          Event.kernelLaunch k d args)) :=
  ⟨by decide,
   claim_C8_accel_recompute.2 exSteppers exWorldA true 0 1 "stage1" _
     (by decide)⟩

theorem claim_C9_witness :
    (lookupStepper exSteppersShared "fluid" = some stEuler ∧
     lookupStepper exSteppersShared "solid" = some stEuler ∧
     "fluid" ≠ "solid" ∧
     has_stepper_loop stEuler "stage1" = true) ∧
    ((get_stepper_code_classes exSteppersShared).count stEuler.cls = 1 ∧
     (⟨"stage1", "fluid", stepper_kernel_name "stage1" "fluid",
       stepper_data_fields stEuler "stage1"⟩ : DataEntry)
        ∈ template_data exSteppersShared
            (get_stepper_method_wrapper_names exSteppersShared) ∧
     (⟨"stage1", "solid", stepper_kernel_name "stage1" "solid",
       stepper_data_fields stEuler "stage1"⟩ : DataEntry)
        ∈ template_data exSteppersShared
            (get_stepper_method_wrapper_names exSteppersShared) ∧
     stepper_kernel_name "stage1" "fluid" ≠
       stepper_kernel_name "stage1" "solid" ∧
     get_stepper_kernel_source exTyped stEuler "fluid" "stage1" =
       get_kernel_definition (stepper_kernel_name "stage1" "fluid")
         ((stepper_data_fields stEuler "stage1" ++ ["t", "dt"]).map exTyped) ++
       "\n\x7b\n" ++ stepper_kernel_body stEuler "stage1" ++ "\n\x7d\n" ∧
     get_stepper_kernel_source exTyped stEuler "solid" "stage1" =
       get_kernel_definition (stepper_kernel_name "stage1" "solid")
         ((stepper_data_fields stEuler "stage1" ++ ["t", "dt"]).map exTyped) ++
       "\n\x7b\n" ++ stepper_kernel_body stEuler "stage1" ++ "\n\x7d\n") :=
  ⟨⟨by decide, by decide, by decide, by decide⟩,
   claim_C9_kernel_dedup exSteppersShared "fluid" "solid" "stage1" stEuler
     exTyped (by decide) (by decide) (by decide) (by decide)⟩

theorem claim_C10_witness :
    do_post_stage exC2State (1/2) 2 =
      ({ exC2State with t := exC2State.orig_t + 1/2 }, []) :=
  (claim_C10_post_stage_frame exC2State (1/2) 2).2.2.2.2.2.2.2 rfl

end PySPH
